import Mathlib

/-!
# webmon: request-phase timing of one HTTP probe

A shallow embedding of `poll` from `webmon.go` together with the eight
`httptrace.ClientTrace` hooks it installs, and the properties of the
returned `stats` value.

Effects are made explicit:
* `time.Now()` is the `Now` oracle of a `Platform`, indexed by the number of
  calls made so far (`Vars.nowCalls`);
* `client.Do(req)` is the `Do` oracle, indexed by the number of calls made so
  far; one call yields the hook events the transport fires
  while the call blocks, and the value the call returns;
* `log.Fatal` and a run-time panic end the process and are outcomes of their
  own.
-/

namespace Webmon

/-! ## The parts of package `time` that `poll` uses -/

/-- A `time.Time`, as the number of nanoseconds elapsed since the zero-value
time (January 1, year 1, 00:00:00 UTC); negative for earlier instants. The wall
and monotonic readings of one `time.Now()` value are taken to agree. -/
abbrev Time := Int

/-- A `time.Duration`: a signed 64-bit count of nanoseconds. -/
abbrev Duration := Int

/-- The constant `minDuration` of package time, `-1 << 63`. -/
def minDuration : Duration := -9223372036854775808

/-- The constant `maxDuration` of package time, `1<<63 - 1`. -/
def maxDuration : Duration := 9223372036854775807

/-- Conversion of an integer to `int64` with two's-complement wrap-around. -/
def wrapInt64 (x : Int) : Int :=
  (x + 9223372036854775808) % 18446744073709551616 - 9223372036854775808

/-- The zero value of `time.Time` (`var t time.Time`). -/
def Time.zero : Time := 0

/-- Method `Time.IsZero`: whether the instant is the zero-value time. -/
def Time.IsZero (t : Time) : Bool := t == Time.zero

/-- Method `Time.Add`. -/
def Time.Add (t : Time) (d : Duration) : Time := t + d

/-- Method `Time.Sub`: the difference is computed in wrapping `int64`
arithmetic and kept when adding it back to `u` gives `t`; otherwise the result
is `minDuration` or `maxDuration`, by the order of `t` and `u`. -/
def Time.Sub (t u : Time) : Duration :=
  let d := wrapInt64 (t - u)
  if Time.Add u d = t then d
  else if t < u then minDuration
  else maxDuration

/-! ## Data model -/

/-- A Go `error` value that is not nil. -/
structure Error where
  msg : String
deriving DecidableEq, Repr

/-- The fields of `x509.Certificate` that `certInfo` prints. -/
structure Certificate where
  IssuerCommonName : String
  SubjectCommonName : String
  DNSNames : List String
  NotBefore : Time
  NotAfter : Time
deriving DecidableEq, Repr

/-- The field of `tls.ConnectionState` read by the handshake hook:
`PeerCertificates []*x509.Certificate` (a nil pointer is `none`). -/
structure ConnectionState where
  PeerCertificates : List (Option Certificate)
deriving DecidableEq, Repr

/-- Type `httptrace.DNSStartInfo`. -/
structure DNSStartInfo where
  Host : String
deriving DecidableEq, Repr

/-- Type `httptrace.DNSDoneInfo`. -/
structure DNSDoneInfo where
  Addrs : List String
  Err : Option Error
  Coalesced : Bool
deriving DecidableEq, Repr

/-- Type `httptrace.GotConnInfo` (without the connection itself). -/
structure GotConnInfo where
  Reused : Bool
  WasIdle : Bool
  IdleTime : Duration
deriving DecidableEq, Repr

/-- The anonymous struct type of the field `stats.time`. -/
structure statsTime where
  dnsLookup : Duration
  tcpConnection : Duration
  tlsHandshake : Duration
  serverProcessing : Duration
  contentTransfer : Duration
  ttfb : Duration
deriving DecidableEq, Repr

/-- Type `stats`; the pointer `tlsCert` is `none` when nil. -/
structure stats where
  ipAddr : String
  tlsCert : Option Certificate
  time : statsTime
deriving DecidableEq, Repr

/-- The zero value of `stats` (`var s stats`). -/
def stats.zero : stats :=
  { ipAddr := "", tlsCert := none,
    time := { dnsLookup := 0, tcpConnection := 0, tlsHandshake := 0,
              serverProcessing := 0, contentTransfer := 0, ttfb := 0 } }

/-- The local variables of one invocation of `poll` that its closures capture,
with the number of calls made so far to `time.Now`. -/
structure Vars where
  t0 : Time
  t1 : Time
  t2 : Time
  t3 : Time
  t4 : Time
  t5 : Time
  t6 : Time
  t7 : Time
  s : stats
  nowCalls : Nat
deriving DecidableEq, Repr

/-- The variables as declared at the top of `poll`: all zero values. -/
def Vars.init : Vars :=
  { t0 := Time.zero, t1 := Time.zero, t2 := Time.zero, t3 := Time.zero,
    t4 := Time.zero, t5 := Time.zero, t6 := Time.zero, t7 := Time.zero,
    s := stats.zero, nowCalls := 0 }

/-- A run-time panic `index out of range [index] with length length`, with the
variables as they were when it was raised. -/
structure Panic where
  index : Nat
  length : Nat
  vars : Vars
deriving DecidableEq, Repr

/-- An invocation of one of the eight hooks that `poll` installs in its
`httptrace.ClientTrace`, with the arguments the transport passes. -/
inductive Event where
  | DNSStart (info : DNSStartInfo)
  | DNSDone (ddi : DNSDoneInfo)
  | ConnectStart (network addr : String)
  | ConnectDone (network addr : String) (err : Option Error)
  | TLSHandshakeStart
  | TLSHandshakeDone (cs : ConnectionState) (err : Option Error)
  | GotConn (info : GotConnInfo)
  | GotFirstResponseByte
deriving DecidableEq, Repr

/-- A request built by `http.NewRequest`. -/
structure Request where
  Method : String
  URL : String
deriving DecidableEq, Repr

/-- The part of `http.Response` a caller could inspect for failure. -/
structure Response where
  StatusCode : Nat
deriving DecidableEq, Repr

/-- What one call of `client.Do` does: the hook invocations made by the
transport while the call blocks, in order, and the call's return value. -/
structure Exchange where
  events : List Event
  result : Except Error Response

/-- The library functions `poll` calls: `http.NewRequest(method, url, nil)`,
the successive readings of `time.Now()`, and the successive calls of
`client.Do(req)`. -/
structure Platform where
  NewRequest : String → String → Except Error Request
  Now : Nat → Time
  Do : Request → Nat → Exchange

/-! ## The hooks -/

/-- A call of `time.Now()`: the next clock reading. -/
def timeNow (clock : Nat → Time) (v : Vars) : Time × Vars :=
  (clock v.nowCalls, { v with nowCalls := v.nowCalls + 1 })

/-- A Go index expression `xs[i]` on a slice: the element, or the index and
the length when the index is out of range. -/
def index {α : Type} (xs : List α) (i : Nat) : Except (Nat × Nat) α :=
  match xs.get? i with
  | some x => .ok x
  | none => .error (i, xs.length)

/-- Hook `DNSStart`: `t0 = time.Now()`. -/
def DNSStart (clock : Nat → Time) (_info : DNSStartInfo) (v : Vars) : Vars :=
  { (timeNow clock v).2 with t0 := (timeNow clock v).1 }

/-- Hook `DNSDone`: `t1 = time.Now()`. -/
def DNSDone (clock : Nat → Time) (_ddi : DNSDoneInfo) (v : Vars) : Vars :=
  { (timeNow clock v).2 with t1 := (timeNow clock v).1 }

/-- Hook `ConnectStart`: `if t1.IsZero() { t1 = time.Now() }`. -/
def ConnectStart (clock : Nat → Time) (_network _addr : String) (v : Vars) : Vars :=
  if Time.IsZero v.t1 then
    { (timeNow clock v).2 with t1 := (timeNow clock v).1 }
  else v

/-- Hook `ConnectDone`: `t2 = time.Now(); s.ipAddr = addr`. -/
def ConnectDone (clock : Nat → Time) (_network addr : String) (_err : Option Error)
    (v : Vars) : Vars :=
  let v1 : Vars := { (timeNow clock v).2 with t2 := (timeNow clock v).1 }
  { v1 with s := { v1.s with ipAddr := addr } }

/-- Hook `TLSHandshakeStart`: `t3 = time.Now()`. -/
def TLSHandshakeStart (clock : Nat → Time) (v : Vars) : Vars :=
  { (timeNow clock v).2 with t3 := (timeNow clock v).1 }

/-- Hook `TLSHandshakeDone`:
`t4 = time.Now(); if err == nil { s.tlsCert = cs.PeerCertificates[0] }`. -/
def TLSHandshakeDone (clock : Nat → Time) (cs : ConnectionState) (err : Option Error)
    (v : Vars) : Except Panic Vars :=
  let v1 : Vars := { (timeNow clock v).2 with t4 := (timeNow clock v).1 }
  if err = none then
    match index cs.PeerCertificates 0 with
    | .ok c => .ok { v1 with s := { v1.s with tlsCert := c } }
    | .error (i, n) => .error { index := i, length := n, vars := v1 }
  else .ok v1

/-- Hook `GotConn`: `t5 = time.Now()`. -/
def GotConn (clock : Nat → Time) (_info : GotConnInfo) (v : Vars) : Vars :=
  { (timeNow clock v).2 with t5 := (timeNow clock v).1 }

/-- Hook `GotFirstResponseByte`: `t6 = time.Now()`. -/
def GotFirstResponseByte (clock : Nat → Time) (v : Vars) : Vars :=
  { (timeNow clock v).2 with t6 := (timeNow clock v).1 }

/-- The transport invoking one hook of the trace. -/
def fire (clock : Nat → Time) (e : Event) (v : Vars) : Except Panic Vars :=
  match e with
  | .DNSStart info => .ok (DNSStart clock info v)
  | .DNSDone ddi => .ok (DNSDone clock ddi v)
  | .ConnectStart network addr => .ok (ConnectStart clock network addr v)
  | .ConnectDone network addr err => .ok (ConnectDone clock network addr err v)
  | .TLSHandshakeStart => .ok (TLSHandshakeStart clock v)
  | .TLSHandshakeDone cs err => TLSHandshakeDone clock cs err v
  | .GotConn info => .ok (GotConn clock info v)
  | .GotFirstResponseByte => .ok (GotFirstResponseByte clock v)

/-- The hook invocations of one transport call, in order; a panic in a hook
ends the run. -/
def runHooks (clock : Nat → Time) : List Event → Vars → Except Panic Vars
  | [], v => .ok v
  | e :: es, v =>
    match fire clock e v with
    | .ok v1 => runHooks clock es v1
    | .error pn => .error pn

/-! ## poll -/

/-- How an invocation of `poll` ends: `log.Fatal(err)` after a failed
`http.NewRequest`, a panic raised in a hook, or a return of `(stats, error)`. -/
inductive Outcome where
  | fatal (err : Error)
  | panicked (pn : Panic)
  | returned (s : stats) (err : Option Error)
deriving DecidableEq, Repr

/-- The outcome of one `poll` and the number of `client.Do` calls it made. -/
structure PollRun where
  outcome : Outcome
  doCalls : Nat
deriving DecidableEq, Repr

/-- The call `client.Do(req)`, the `calls`-th one: the transport runs, firing
the hooks of the trace attached to the request, and the call returns the
transport's result. -/
def clientDo (p : Platform) (req : Request) (calls : Nat) (v : Vars) :
    Except Panic (Except Error Response × Vars) × Nat :=
  let ex := p.Do req calls
  match runHooks p.Now ex.events v with
  | .ok v1 => (.ok (ex.result, v1), calls + 1)
  | .error pn => (.error pn, calls + 1)

/-- The six assignments to `s.time` at the end of `poll`. -/
def derive (v : Vars) : stats :=
  { v.s with
    time := { dnsLookup := Time.Sub v.t1 v.t0,
              tcpConnection := Time.Sub v.t2 v.t1,
              tlsHandshake := Time.Sub v.t4 v.t3,
              serverProcessing := Time.Sub v.t6 v.t5,
              contentTransfer := Time.Sub v.t7 v.t6,
              ttfb := Time.Sub v.t6 v.t0 } }

/-- Function `poll`. -/
def poll (p : Platform) (url : String) : PollRun :=
  let v := Vars.init
  let calls := 0
  match p.NewRequest "GET" url with
  | .error err => { outcome := .fatal err, doCalls := calls }
  | .ok req =>
    match clientDo p req calls v with
    | (.error pn, calls1) => { outcome := .panicked pn, doCalls := calls1 }
    | (.ok (.error err, v1), calls1) =>
      { outcome := .returned v1.s (some err), doCalls := calls1 }
    | (.ok (.ok _, v1), calls1) =>
      let v2 : Vars := { (timeNow p.Now v1).2 with t7 := (timeNow p.Now v1).1 }
      { outcome := .returned (derive v2) none, doCalls := calls1 }

/-! ## Vocabulary of the statements -/

/-- The seven checkpoints written by the hooks, by number. -/
def checkpoint (i : Fin 7) (v : Vars) : Time :=
  match i with
  | 0 => v.t0
  | 1 => v.t1
  | 2 => v.t2
  | 3 => v.t3
  | 4 => v.t4
  | 5 => v.t5
  | 6 => v.t6

/-- The checkpoint a hook assigns without a guard; `ConnectStart`, whose
assignment to `t1` is guarded by `t1.IsZero()`, has none. -/
def writer : Event → Option (Fin 7)
  | .DNSStart _ => some 0
  | .DNSDone _ => some 1
  | .ConnectStart _ _ => none
  | .ConnectDone _ _ _ => some 2
  | .TLSHandshakeStart => some 3
  | .TLSHandshakeDone _ _ => some 4
  | .GotConn _ => some 5
  | .GotFirstResponseByte => some 6

/-- Whether the event is an invocation of one of the two TLS hooks. -/
def isTLS : Event → Bool
  | .TLSHandshakeStart => true
  | .TLSHandshakeDone _ _ => true
  | _ => false

/-- The error value of a `(response, error)` pair returned by `client.Do`. -/
def resultErr : Except Error Response → Option Error
  | .ok _ => none
  | .error err => some err

/-- The variables after a hook ran, whether it completed or panicked. -/
def varsAfter : Except Panic Vars → Vars
  | .ok v => v
  | .error pn => pn.vars

/-- The hook invocations of a probe in lifecycle order: DNS start and done
(absent when resolution is skipped), connect start and done, TLS handshake
start and successful done (absent for a plaintext target), connection
acquired, first response byte. -/
def lifecycle (dns : Option (DNSStartInfo × DNSDoneInfo)) (network addr : String)
    (tls : Option ConnectionState) (info : GotConnInfo) : List Event :=
  (match dns with
    | some (a, b) => [Event.DNSStart a, Event.DNSDone b]
    | none => []) ++
  [Event.ConnectStart network addr, Event.ConnectDone network addr none] ++
  (match tls with
    | some cs => [Event.TLSHandshakeStart, Event.TLSHandshakeDone cs none]
    | none => []) ++
  [Event.GotConn info, Event.GotFirstResponseByte]

/-- The address delivered by the last `ConnectDone` among the events, `dflt`
when there is none. -/
def lastAddr (dflt : String) : List Event → String
  | [] => dflt
  | e :: es =>
    lastAddr (match e with
      | .ConnectDone _ addr _ => addr
      | _ => dflt) es

/-- The first entry of the peer certificate chain reported by the last
successful `TLSHandshakeDone` among the events, `dflt` when there is none. -/
def lastLeaf (dflt : Option Certificate) : List Event → Option Certificate
  | [] => dflt
  | e :: es =>
    lastLeaf (match e with
      | .TLSHandshakeDone cs none =>
        (match cs.PeerCertificates with
          | c :: _ => c
          | [] => dflt)
      | _ => dflt) es

/-- The TLS events of a lifecycle, when present, report a non-empty chain. -/
def chainPresent : Option ConnectionState → Prop
  | none => True
  | some cs => cs.PeerCertificates ≠ []

/-- Each checkpoint is the zero-value time or the reading of one of the
`time.Now()` calls made so far. -/
def Recorded (clock : Nat → Time) (v : Vars) : Prop :=
  ∀ i, checkpoint i v = Time.zero ∨ ∃ k, k < v.nowCalls ∧ checkpoint i v = clock k

/-! ## Concrete probes -/

/-- A clock reading 1 ms more at every call, from 2026-11-04 00:00:00 UTC
(63929347200 s after the zero-value time). -/
def wallClock (k : Nat) : Time := 63929347200000000000 + 1000000 * (k : Int)

/-- A platform on which every URL parses and every `client.Do` behaves as `ex`. -/
def platformOf (ex : Exchange) : Platform :=
  { NewRequest := fun method url => .ok { Method := method, URL := url },
    Now := wallClock,
    Do := fun _ _ => ex }

/-- A leaf certificate. -/
def leafCert : Certificate :=
  { IssuerCommonName := "Example CA", SubjectCommonName := "example.com",
    DNSNames := ["example.com", "www.example.com"],
    NotBefore := 63900000000000000000, NotAfter := 63960000000000000000 }

/-- A successful plaintext probe of a literal-IP URL: no DNS and no TLS hooks. -/
def literalIPProbe : Exchange :=
  { events := lifecycle none "tcp" "192.0.2.10:80" none
      { Reused := false, WasIdle := false, IdleTime := 0 },
    result := .ok { StatusCode := 200 } }

/-- A successful HTTPS probe of a host name. -/
def httpsProbe : Exchange :=
  { events := lifecycle
      (some ({ Host := "example.com" },
             { Addrs := ["93.184.216.34"], Err := none, Coalesced := false }))
      "tcp" "93.184.216.34:443" (some { PeerCertificates := [some leafCert] })
      { Reused := false, WasIdle := false, IdleTime := 0 },
    result := .ok { StatusCode := 200 } }

/-- A probe that times out after the connection and the TLS handshake
succeeded. -/
def timeoutProbe : Exchange :=
  { events := [Event.ConnectStart "tcp" "192.0.2.10:443",
               Event.ConnectDone "tcp" "192.0.2.10:443" none,
               Event.TLSHandshakeStart,
               Event.TLSHandshakeDone { PeerCertificates := [some leafCert] } none],
    result := .error { msg := "context deadline exceeded" } }

/-- Two `ConnectDone` invocations in one probe, as in dual-stack dialing: the
IPv6 attempt fails, the IPv4 attempt succeeds. -/
def dualStackDone : List Event :=
  [Event.ConnectDone "tcp" "[2001:db8::1]:443" (some (Error.mk "connect: network is unreachable")),
   Event.ConnectDone "tcp" "192.0.2.10:443" none]

/-- The variables after the first invocation of `dualStackDone`. -/
def afterFirstDone : Vars :=
  { Vars.init with
    t2 := 63929347200000000000,
    s := { stats.zero with ipAddr := "[2001:db8::1]:443" },
    nowCalls := 1 }

/-- The variables after both invocations of `dualStackDone`. -/
def afterSecondDone : Vars :=
  { Vars.init with
    t2 := 63929347200001000000,
    s := { stats.zero with ipAddr := "192.0.2.10:443" },
    nowCalls := 2 }

/-- The hook invocations of an HTTPS probe that follow `ConnectDone`. -/
def afterConnect : List Event :=
  [Event.TLSHandshakeStart,
   Event.TLSHandshakeDone { PeerCertificates := [some leafCert] } none,
   Event.GotConn { Reused := false, WasIdle := false, IdleTime := 0 },
   Event.GotFirstResponseByte]

/-- A probe answered with status 404. -/
def notFoundProbe : Exchange :=
  { events := lifecycle none "tcp" "192.0.2.10:80" none
      { Reused := false, WasIdle := false, IdleTime := 0 },
    result := .ok { StatusCode := 404 } }

/-! ## Facts about `Time.Sub` -/

theorem Time.Sub_eq_clamp (t u : Time) :
    Time.Sub t u = max minDuration (min maxDuration (t - u)) := by
  unfold Time.Sub Time.Add wrapInt64 minDuration maxDuration
  simp only
  unfold Time Duration at *
  split_ifs <;> omega

theorem Time.Sub_self (t : Time) : Time.Sub t t = 0 := by
  rw [Time.Sub_eq_clamp]; unfold minDuration maxDuration
  unfold Time Duration at *; omega

theorem Time.Sub_nonneg {t u : Time} (h : u ≤ t) : 0 ≤ Time.Sub t u := by
  rw [Time.Sub_eq_clamp]; unfold minDuration maxDuration
  unfold Time Duration at *; omega

theorem Time.Sub_mono_left {t t1 : Time} (u : Time) (h : t ≤ t1) :
    Time.Sub t u ≤ Time.Sub t1 u := by
  rw [Time.Sub_eq_clamp, Time.Sub_eq_clamp]; unfold minDuration maxDuration
  unfold Time Duration at *; omega

theorem Time.Sub_exact {t u : Time} (h1 : minDuration ≤ t - u) (h2 : t - u ≤ maxDuration) :
    Time.Sub t u = t - u := by
  rw [Time.Sub_eq_clamp]; unfold minDuration maxDuration at *
  unfold Time Duration at *; omega

theorem Time.Sub_zero_of_late {t : Time} (h : maxDuration ≤ t) :
    Time.Sub t Time.zero = maxDuration := by
  rw [Time.Sub_eq_clamp]; unfold minDuration maxDuration Time.zero at *
  unfold Time Duration at *; omega

theorem Time.Sub_samples :
    Time.Sub 63900000000000000000 0 = 9223372036854775807 ∧
    Time.Sub 0 63900000000000000000 = -9223372036854775808 ∧
    Time.Sub 63900000000000000500 63900000000000000000 = 500 := by
  decide

/-! ## How `poll` ends, from the run of the hooks -/

theorem poll_of_run_ok {p : Platform} {url : String} {req : Request} {resp : Response}
    {v : Vars} (hreq : p.NewRequest "GET" url = .ok req)
    (hrun : runHooks p.Now (p.Do req 0).events Vars.init = .ok v)
    (hres : (p.Do req 0).result = .ok resp) :
    poll p url =
      ⟨.returned (derive { v with t7 := p.Now v.nowCalls, nowCalls := v.nowCalls + 1 }) none,
        1⟩ := by
  simp [poll, clientDo, hreq, hrun, hres, timeNow]

theorem poll_of_run_error {p : Platform} {url : String} {req : Request} {err : Error}
    {v : Vars} (hreq : p.NewRequest "GET" url = .ok req)
    (hrun : runHooks p.Now (p.Do req 0).events Vars.init = .ok v)
    (hres : (p.Do req 0).result = .error err) :
    poll p url = ⟨.returned v.s (some err), 1⟩ := by
  simp [poll, clientDo, hreq, hrun, hres]

theorem poll_of_panic {p : Platform} {url : String} {req : Request} {pn : Panic}
    (hreq : p.NewRequest "GET" url = .ok req)
    (hrun : runHooks p.Now (p.Do req 0).events Vars.init = .error pn) :
    poll p url = ⟨.panicked pn, 1⟩ := by
  simp [poll, clientDo, hreq, hrun]

theorem poll_of_fatal {p : Platform} {url : String} {err : Error}
    (hreq : p.NewRequest "GET" url = .error err) :
    poll p url = ⟨.fatal err, 0⟩ := by
  simp [poll, hreq]

/-- `poll` returns to its caller exactly when the request could be built and
no hook panicked. -/
theorem poll_returns_iff (p : Platform) (url : String) :
    (∃ s err, (poll p url).outcome = .returned s err) ↔
      ∃ req v, p.NewRequest "GET" url = .ok req ∧
        runHooks p.Now (p.Do req 0).events Vars.init = .ok v := by
  constructor
  · rintro ⟨s, err, h⟩
    cases hreq : p.NewRequest "GET" url with
    | error e => rw [poll_of_fatal hreq] at h; simp at h
    | ok req =>
      cases hrun : runHooks p.Now (p.Do req 0).events Vars.init with
      | error pn => rw [poll_of_panic hreq hrun] at h; simp at h
      | ok v => exact ⟨req, v, rfl, hrun⟩
  · rintro ⟨req, v, hreq, hrun⟩
    cases hres : (p.Do req 0).result with
    | error e => exact ⟨_, _, by rw [poll_of_run_error hreq hrun hres]⟩
    | ok resp => exact ⟨_, _, by rw [poll_of_run_ok hreq hrun hres]⟩

/-! ## Every checkpoint is unset or an earlier clock reading -/

theorem Recorded_init (clock : Nat → Time) : Recorded clock Vars.init := by
  intro i
  left
  fin_cases i <;> rfl

theorem Recorded_step {clock : Nat → Time} {v v1 : Vars} (hv : Recorded clock v)
    (hn : v.nowCalls ≤ v1.nowCalls)
    (h : ∀ i, checkpoint i v1 = checkpoint i v ∨
      (checkpoint i v1 = clock v.nowCalls ∧ v.nowCalls < v1.nowCalls)) :
    Recorded clock v1 := by
  intro i
  rcases h i with h1 | ⟨h1, h2⟩
  · rcases hv i with h3 | ⟨k, hk, h3⟩
    · left; rw [h1, h3]
    · right; exact ⟨k, by omega, by rw [h1, h3]⟩
  · right; exact ⟨v.nowCalls, h2, h1⟩

theorem fire_Recorded {clock : Nat → Time} {e : Event} {v v1 : Vars}
    (hv : Recorded clock v) (h : fire clock e v = .ok v1) : Recorded clock v1 := by
  cases e with
  | DNSStart info =>
    simp only [fire, Except.ok.injEq] at h; subst h
    refine Recorded_step hv (by simp [DNSStart, timeNow]) ?_
    intro i; fin_cases i <;> simp [checkpoint, DNSStart, timeNow]
  | DNSDone ddi =>
    simp only [fire, Except.ok.injEq] at h; subst h
    refine Recorded_step hv (by simp [DNSDone, timeNow]) ?_
    intro i; fin_cases i <;> simp [checkpoint, DNSDone, timeNow]
  | ConnectStart network addr =>
    simp only [fire, Except.ok.injEq] at h; subst h
    by_cases hz : Time.IsZero v.t1 = true
    · refine Recorded_step hv (by simp [ConnectStart, timeNow, hz]) ?_
      intro i; fin_cases i <;> simp [checkpoint, ConnectStart, timeNow, hz]
    · simpa [ConnectStart, hz] using hv
  | ConnectDone network addr err =>
    simp only [fire, Except.ok.injEq] at h; subst h
    refine Recorded_step hv (by simp [ConnectDone, timeNow]) ?_
    intro i; fin_cases i <;> simp [checkpoint, ConnectDone, timeNow]
  | TLSHandshakeStart =>
    simp only [fire, Except.ok.injEq] at h; subst h
    refine Recorded_step hv (by simp [TLSHandshakeStart, timeNow]) ?_
    intro i; fin_cases i <;> simp [checkpoint, TLSHandshakeStart, timeNow]
  | TLSHandshakeDone cs err =>
    simp only [fire, TLSHandshakeDone] at h
    split_ifs at h with he
    · split at h
      · simp only [Except.ok.injEq] at h; subst h
        refine Recorded_step hv (by simp [timeNow]) ?_
        intro i; fin_cases i <;> simp [checkpoint, timeNow]
      · simp at h
    · simp only [Except.ok.injEq] at h; subst h
      refine Recorded_step hv (by simp [timeNow]) ?_
      intro i; fin_cases i <;> simp [checkpoint, timeNow]
  | GotConn info =>
    simp only [fire, Except.ok.injEq] at h; subst h
    refine Recorded_step hv (by simp [GotConn, timeNow]) ?_
    intro i; fin_cases i <;> simp [checkpoint, GotConn, timeNow]
  | GotFirstResponseByte =>
    simp only [fire, Except.ok.injEq] at h; subst h
    refine Recorded_step hv (by simp [GotFirstResponseByte, timeNow]) ?_
    intro i; fin_cases i <;> simp [checkpoint, GotFirstResponseByte, timeNow]

theorem runHooks_Recorded {clock : Nat → Time} (es : List Event) {v v1 : Vars}
    (hv : Recorded clock v) (h : runHooks clock es v = .ok v1) : Recorded clock v1 := by
  induction es generalizing v with
  | nil => simp only [runHooks, Except.ok.injEq] at h; subst h; exact hv
  | cons e es ih =>
    simp only [runHooks] at h
    cases hf : fire clock e v with
    | error pn => rw [hf] at h; simp at h
    | ok v2 => rw [hf] at h; exact ih (fire_Recorded hv hf) h

/-! ## Probes without TLS events -/

theorem fire_noTLS (clock : Nat → Time) {e : Event} (v : Vars) (he : isTLS e = false) :
    ∃ v1, fire clock e v = .ok v1 ∧ v1.t3 = v.t3 ∧ v1.t4 = v.t4 ∧
      v1.s.tlsCert = v.s.tlsCert := by
  cases e with
  | DNSStart info => exact ⟨_, rfl, rfl, rfl, rfl⟩
  | DNSDone ddi => exact ⟨_, rfl, rfl, rfl, rfl⟩
  | ConnectStart network addr =>
    refine ⟨_, rfl, ?_, ?_, ?_⟩ <;> (simp only [ConnectStart]; split_ifs <;> rfl)
  | ConnectDone network addr err => exact ⟨_, rfl, rfl, rfl, rfl⟩
  | TLSHandshakeStart => simp [isTLS] at he
  | TLSHandshakeDone cs err => simp [isTLS] at he
  | GotConn info => exact ⟨_, rfl, rfl, rfl, rfl⟩
  | GotFirstResponseByte => exact ⟨_, rfl, rfl, rfl, rfl⟩

theorem runHooks_noTLS (clock : Nat → Time) (es : List Event) (v : Vars)
    (hes : ∀ e ∈ es, isTLS e = false) :
    ∃ v1, runHooks clock es v = .ok v1 ∧ v1.t3 = v.t3 ∧ v1.t4 = v.t4 ∧
      v1.s.tlsCert = v.s.tlsCert := by
  induction es generalizing v with
  | nil => exact ⟨v, rfl, rfl, rfl, rfl⟩
  | cons e es ih =>
    obtain ⟨v1, h1, h3, h4, hc⟩ := fire_noTLS clock v (hes e (by simp))
    obtain ⟨v2, h2, h3', h4', hc'⟩ := ih v1 (fun e he => hes e (by simp [he]))
    refine ⟨v2, ?_, h3'.trans h3, h4'.trans h4, hc'.trans hc⟩
    simp only [runHooks, h1, h2]

/-! ## Probes in lifecycle order -/

theorem lifecycle_order {clock : Nat → Time} (dns : Option (DNSStartInfo × DNSDoneInfo))
    (network addr : String) (tls : Option ConnectionState) (info : GotConnInfo)
    (hmono : Monotone clock) (hpos : ∀ k, Time.zero ≤ clock k) (htls : chainPresent tls) :
    ∃ v, runHooks clock (lifecycle dns network addr tls info) Vars.init = .ok v ∧
      v.t0 ≤ v.t1 ∧ v.t1 ≤ v.t2 ∧ v.t3 ≤ v.t4 ∧ v.t5 ≤ v.t6 ∧ v.t1 ≤ v.t6 ∧
      v.t6 ≤ clock v.nowCalls := by
  have m : ∀ a b : Nat, a ≤ b → clock a ≤ clock b := fun a b h => hmono h
  have z : ∀ k, (0 : Int) ≤ clock k := hpos
  rcases dns with _ | ⟨a, b⟩ <;> rcases tls with _ | ⟨_ | ⟨c, rest⟩⟩
  · simp [lifecycle, runHooks, fire, ConnectStart, ConnectDone, GotConn,
      GotFirstResponseByte, timeNow, Vars.init, Time.IsZero, Time.zero]
    refine ⟨?_, ?_, ?_, ?_, ?_⟩ <;> first | exact z _ | exact m _ _ (by omega)
  · simp [chainPresent] at htls
  · simp [lifecycle, runHooks, fire, ConnectStart, ConnectDone, GotConn, TLSHandshakeStart,
      TLSHandshakeDone, GotFirstResponseByte, timeNow, Vars.init, Time.IsZero, Time.zero, index]
    refine ⟨?_, ?_, ?_, ?_, ?_, ?_⟩ <;> first | exact z _ | exact m _ _ (by omega)
  · by_cases hz : clock 1 = 0
    · simp [lifecycle, runHooks, fire, DNSStart, DNSDone, ConnectStart, ConnectDone, GotConn,
        GotFirstResponseByte, timeNow, Vars.init, Time.IsZero, Time.zero, hz]
      refine ⟨?_, ?_, ?_, ?_, ?_⟩ <;> first | exact z _ | exact m _ _ (by omega)
    · simp [lifecycle, runHooks, fire, DNSStart, DNSDone, ConnectStart, ConnectDone, GotConn,
        GotFirstResponseByte, timeNow, Vars.init, Time.IsZero, Time.zero, hz]
      refine ⟨?_, ?_, ?_, ?_, ?_⟩ <;> first | exact z _ | exact m _ _ (by omega)
  · simp [chainPresent] at htls
  · by_cases hz : clock 1 = 0
    · simp [lifecycle, runHooks, fire, DNSStart, DNSDone, ConnectStart, ConnectDone, GotConn,
        TLSHandshakeStart, TLSHandshakeDone, GotFirstResponseByte, timeNow, Vars.init,
        Time.IsZero, Time.zero, index, hz]
      refine ⟨?_, ?_, ?_, ?_, ?_, ?_⟩ <;> first | exact z _ | exact m _ _ (by omega)
    · simp [lifecycle, runHooks, fire, DNSStart, DNSDone, ConnectStart, ConnectDone, GotConn,
        TLSHandshakeStart, TLSHandshakeDone, GotFirstResponseByte, timeNow, Vars.init,
        Time.IsZero, Time.zero, index, hz]
      refine ⟨?_, ?_, ?_, ?_, ?_, ?_⟩ <;> first | exact z _ | exact m _ _ (by omega)

theorem lifecycle_tcp_dns {clock : Nat → Time} (a : DNSStartInfo) (b : DNSDoneInfo)
    (network addr : String) (tls : Option ConnectionState) (info : GotConnInfo)
    (hnz : clock 1 ≠ Time.zero) (htls : chainPresent tls) :
    ∃ v, runHooks clock (lifecycle (some (a, b)) network addr tls info) Vars.init = .ok v ∧
      v.t1 = clock 1 ∧ v.t2 = clock 2 := by
  have hz : ¬ clock 1 = 0 := hnz
  rcases tls with _ | ⟨_ | ⟨c, rest⟩⟩
  · simp [lifecycle, runHooks, fire, DNSStart, DNSDone, ConnectStart, ConnectDone, GotConn,
      GotFirstResponseByte, timeNow, Vars.init, Time.IsZero, Time.zero, hz]
  · simp [chainPresent] at htls
  · simp [lifecycle, runHooks, fire, DNSStart, DNSDone, ConnectStart, ConnectDone, GotConn,
      TLSHandshakeStart, TLSHandshakeDone, GotFirstResponseByte, timeNow, Vars.init,
      Time.IsZero, Time.zero, index, hz]

theorem lifecycle_tcp_nodns (clock : Nat → Time)
    (network addr : String) (tls : Option ConnectionState) (info : GotConnInfo)
    (htls : chainPresent tls) :
    ∃ v, runHooks clock (lifecycle none network addr tls info) Vars.init = .ok v ∧
      v.t0 = Time.zero ∧ v.t1 = clock 0 ∧ v.t2 = clock 1 ∧ ∃ k, v.t6 = clock k := by
  rcases tls with _ | ⟨_ | ⟨c, rest⟩⟩
  · simp [lifecycle, runHooks, fire, ConnectStart, ConnectDone, GotConn,
      GotFirstResponseByte, timeNow, Vars.init, Time.IsZero, Time.zero]
  · simp [chainPresent] at htls
  · simp [lifecycle, runHooks, fire, ConnectStart, ConnectDone, GotConn,
      TLSHandshakeStart, TLSHandshakeDone, GotFirstResponseByte, timeNow, Vars.init,
      Time.IsZero, Time.zero, index]

/-- When DNS is skipped in a successful probe in lifecycle order, on a clock
reading at least `maxDuration` after the zero-value time (any date from the
year 293 on), `poll` returns `dnsLookup = ttfb = maxDuration`. -/
theorem poll_dns_skipped_saturates (p : Platform) (url : String) (req : Request)
    (resp : Response) (network addr : String) (tls : Option ConnectionState)
    (info : GotConnInfo)
    (hreq : p.NewRequest "GET" url = .ok req)
    (hev : (p.Do req 0).events = lifecycle none network addr tls info)
    (hres : (p.Do req 0).result = .ok resp)
    (hlate : ∀ k, maxDuration ≤ p.Now k) (htls : chainPresent tls) :
    ∃ s, (poll p url).outcome = .returned s none ∧
      s.time.dnsLookup = maxDuration ∧ s.time.ttfb = maxDuration := by
  obtain ⟨v, hrun, h0, h1, _, k, h6⟩ := lifecycle_tcp_nodns p.Now network addr tls info htls
  rw [← hev] at hrun
  refine ⟨derive { v with t7 := p.Now v.nowCalls, nowCalls := v.nowCalls + 1 },
    by rw [poll_of_run_ok hreq hrun hres], ?_, ?_⟩
  · show Time.Sub v.t1 v.t0 = maxDuration
    rw [h0, h1]; exact Time.Sub_zero_of_late (hlate 0)
  · show Time.Sub v.t6 v.t0 = maxDuration
    rw [h0, h6]; exact Time.Sub_zero_of_late (hlate k)

/-! ## What the hooks leave in `s` -/

theorem fire_stats {clock : Nat → Time} {e : Event} {v v1 : Vars}
    (h : fire clock e v = .ok v1) :
    v1.s.time = v.s.time ∧ lastAddr v1.s.ipAddr [] = lastAddr v.s.ipAddr [e] ∧
      lastLeaf v1.s.tlsCert [] = lastLeaf v.s.tlsCert [e] := by
  cases e with
  | DNSStart info => simp only [fire, Except.ok.injEq] at h; subst h; exact ⟨rfl, rfl, rfl⟩
  | DNSDone ddi => simp only [fire, Except.ok.injEq] at h; subst h; exact ⟨rfl, rfl, rfl⟩
  | ConnectStart network addr =>
    simp only [fire, Except.ok.injEq] at h; subst h
    refine ⟨?_, ?_, ?_⟩ <;> (simp only [ConnectStart]; split_ifs <;> rfl)
  | ConnectDone network addr err =>
    simp only [fire, Except.ok.injEq] at h; subst h; exact ⟨rfl, rfl, rfl⟩
  | TLSHandshakeStart => simp only [fire, Except.ok.injEq] at h; subst h; exact ⟨rfl, rfl, rfl⟩
  | TLSHandshakeDone cs err =>
    rcases cs with ⟨_ | ⟨c, rest⟩⟩ <;> cases err <;>
      simp [fire, TLSHandshakeDone, index, timeNow] at h <;> subst h <;>
      simp [lastAddr, lastLeaf]
  | GotConn info => simp only [fire, Except.ok.injEq] at h; subst h; exact ⟨rfl, rfl, rfl⟩
  | GotFirstResponseByte =>
    simp only [fire, Except.ok.injEq] at h; subst h; exact ⟨rfl, rfl, rfl⟩

theorem runHooks_stats {clock : Nat → Time} (es : List Event) {v v1 : Vars}
    (h : runHooks clock es v = .ok v1) :
    v1.s.time = v.s.time ∧ v1.s.ipAddr = lastAddr v.s.ipAddr es ∧
      v1.s.tlsCert = lastLeaf v.s.tlsCert es := by
  induction es generalizing v with
  | nil => simp only [runHooks, Except.ok.injEq] at h; subst h; exact ⟨rfl, rfl, rfl⟩
  | cons e es ih =>
    simp only [runHooks] at h
    cases hf : fire clock e v with
    | error pn => rw [hf] at h; simp at h
    | ok v2 =>
      rw [hf] at h
      obtain ⟨h1, h2, h3⟩ := ih h
      obtain ⟨g1, g2, g3⟩ := fire_stats hf
      simp only [lastAddr, lastLeaf] at g2 g3
      refine ⟨h1.trans g1, ?_, ?_⟩
      · rw [h2, g2]; simp only [lastAddr]
      · rw [h3, g3]; simp only [lastLeaf]

/-! ## Which hook changes which checkpoint -/

theorem fire_checkpoint {clock : Nat → Time} {e : Event} {v v1 : Vars} (i : Fin 7)
    (h : fire clock e v = .ok v1) (hset : checkpoint i v ≠ Time.zero)
    (hw : writer e ≠ some i) : checkpoint i v1 = checkpoint i v := by
  cases e with
  | DNSStart info =>
    simp only [fire, Except.ok.injEq] at h; subst h
    fin_cases i <;> simp [writer] at hw <;> rfl
  | DNSDone ddi =>
    simp only [fire, Except.ok.injEq] at h; subst h
    fin_cases i <;> simp [writer] at hw <;> rfl
  | ConnectStart network addr =>
    simp only [fire, Except.ok.injEq] at h; subst h
    by_cases hz : Time.IsZero v.t1 = true
    · fin_cases i <;> simp [checkpoint, ConnectStart, timeNow, hz]
      simp [checkpoint, Time.IsZero] at hset hz
      exact absurd hz hset
    · simp [ConnectStart, hz]
  | ConnectDone network addr err =>
    simp only [fire, Except.ok.injEq] at h; subst h
    fin_cases i <;> simp [writer] at hw <;> rfl
  | TLSHandshakeStart =>
    simp only [fire, Except.ok.injEq] at h; subst h
    fin_cases i <;> simp [writer] at hw <;> rfl
  | TLSHandshakeDone cs err =>
    rcases cs with ⟨_ | ⟨c, rest⟩⟩ <;> cases err <;>
      simp [fire, TLSHandshakeDone, index, timeNow] at h <;> subst h <;>
      fin_cases i <;> simp [writer] at hw <;> rfl
  | GotConn info =>
    simp only [fire, Except.ok.injEq] at h; subst h
    fin_cases i <;> simp [writer] at hw <;> rfl
  | GotFirstResponseByte =>
    simp only [fire, Except.ok.injEq] at h; subst h
    fin_cases i <;> simp [writer] at hw <;> rfl

theorem fire_writer {clock : Nat → Time} (e : Event) (v : Vars) (i : Fin 7)
    (hw : writer e = some i) :
    checkpoint i (varsAfter (fire clock e v)) = clock v.nowCalls := by
  cases e with
  | DNSStart info => simp [writer] at hw; subst hw; rfl
  | DNSDone ddi => simp [writer] at hw; subst hw; rfl
  | ConnectStart network addr => simp [writer] at hw
  | ConnectDone network addr err => simp [writer] at hw; subst hw; rfl
  | TLSHandshakeStart => simp [writer] at hw; subst hw; rfl
  | TLSHandshakeDone cs err =>
    simp [writer] at hw; subst hw
    rcases cs with ⟨_ | ⟨c, rest⟩⟩ <;> cases err <;>
      simp [fire, TLSHandshakeDone, index, varsAfter, timeNow, checkpoint]
  | GotConn info => simp [writer] at hw; subst hw; rfl
  | GotFirstResponseByte => simp [writer] at hw; subst hw; rfl

theorem runHooks_checkpoint {clock : Nat → Time} (es : List Event) {v v1 : Vars} (i : Fin 7)
    (h : runHooks clock es v = .ok v1) (hset : checkpoint i v ≠ Time.zero)
    (hw : ∀ e ∈ es, writer e ≠ some i) : checkpoint i v1 = checkpoint i v := by
  induction es generalizing v with
  | nil => simp only [runHooks, Except.ok.injEq] at h; subst h; rfl
  | cons e es ih =>
    simp only [runHooks] at h
    cases hf : fire clock e v with
    | error pn => rw [hf] at h; simp at h
    | ok v2 =>
      rw [hf] at h
      have h2 := fire_checkpoint i hf hset (hw e (by simp))
      rw [ih h (by rw [h2]; exact hset) (fun e he => hw e (by simp [he])), h2]

/-! ## The claims -/

/-- C1: for every probe whose transport call succeeds (the request was built,
the hooks ran to `v`, `client.Do` returned a response), `poll` returns stats
with `dnsLookup = t1 - t0`, `tcpConnection = t2 - t1`, `tlsHandshake = t4 - t3`,
`serverProcessing = t6 - t5`, `contentTransfer = t7 - t6` and `ttfb = t6 - t0`,
the differences being those of `Time.Sub`, where `t0..t6` are the checkpoints
the hooks left and `t7` is the clock reading taken after the call returned: it
is reading number `v.nowCalls`, and every checkpoint is unset or a reading of
smaller number. Where the exact difference of two instants fits a `Duration`,
`Time.Sub` is that difference. -/
theorem poll_success_durations (p : Platform) (url : String) (req : Request)
    (resp : Response) (v : Vars)
    (hreq : p.NewRequest "GET" url = .ok req)
    (hrun : runHooks p.Now (p.Do req 0).events Vars.init = .ok v)
    (hres : (p.Do req 0).result = .ok resp) :
    ∃ s, (poll p url).outcome = .returned s none ∧
      s.time.dnsLookup = Time.Sub v.t1 v.t0 ∧
      s.time.tcpConnection = Time.Sub v.t2 v.t1 ∧
      s.time.tlsHandshake = Time.Sub v.t4 v.t3 ∧
      s.time.serverProcessing = Time.Sub v.t6 v.t5 ∧
      s.time.contentTransfer = Time.Sub (p.Now v.nowCalls) v.t6 ∧
      s.time.ttfb = Time.Sub v.t6 v.t0 ∧
      s.ipAddr = v.s.ipAddr ∧ s.tlsCert = v.s.tlsCert ∧
      Recorded p.Now v ∧
      ∀ t u : Time, minDuration ≤ t - u → t - u ≤ maxDuration → Time.Sub t u = t - u := by
  refine ⟨derive { v with t7 := p.Now v.nowCalls, nowCalls := v.nowCalls + 1 },
    by rw [poll_of_run_ok hreq hrun hres], rfl, rfl, rfl, rfl, rfl, rfl, rfl, rfl, ?_, ?_⟩
  · exact runHooks_Recorded _ (Recorded_init _) hrun
  · exact fun t u h1 h2 => Time.Sub_exact h1 h2

/-- Witness of C1: the HTTPS probe of a host name, on a clock ticking 1 ms. -/
theorem poll_success_durations_witness :
    ∃ s, (poll (platformOf httpsProbe) "https://example.com").outcome = .returned s none ∧
      s.time.dnsLookup = 1000000 ∧ s.time.tcpConnection = 1000000 ∧
      s.time.tlsHandshake = 1000000 ∧ s.time.serverProcessing = 1000000 ∧
      s.time.contentTransfer = 1000000 ∧ s.time.ttfb = 6000000 := by
  obtain ⟨s, h, h1, h2, h3, h4, h5, h6, _⟩ :=
    poll_success_durations (platformOf httpsProbe) "https://example.com"
      ⟨"GET", "https://example.com"⟩ ⟨200⟩
      (varsAfter (runHooks wallClock httpsProbe.events Vars.init)) rfl rfl rfl
  exact ⟨s, h, by rw [h1]; decide, by rw [h2]; decide, by rw [h3]; decide,
    by rw [h4]; decide, by rw [h5]; decide, by rw [h6]; decide⟩

/-- C5: for a plaintext target, that is for every successful probe in which
neither `TLSHandshakeStart` nor `TLSHandshakeDone` fires, the hooks complete
with `t3` and `t4` still unset, and `poll` returns stats with
`tlsHandshake = 0` and `tlsCert` nil: the subtraction of the two unset
checkpoints does not fail. -/
theorem poll_plaintext (p : Platform) (url : String) (req : Request) (resp : Response)
    (hreq : p.NewRequest "GET" url = .ok req)
    (hres : (p.Do req 0).result = .ok resp)
    (hno : ∀ e ∈ (p.Do req 0).events, isTLS e = false) :
    ∃ v s, runHooks p.Now (p.Do req 0).events Vars.init = .ok v ∧
      v.t3 = Time.zero ∧ v.t4 = Time.zero ∧
      (poll p url).outcome = .returned s none ∧
      s.time.tlsHandshake = 0 ∧ s.tlsCert = none := by
  obtain ⟨v, hrun, h3, h4, hc⟩ := runHooks_noTLS p.Now _ Vars.init hno
  refine ⟨v, _, hrun, h3, h4, by rw [poll_of_run_ok hreq hrun hres], ?_, ?_⟩
  · show Time.Sub v.t4 v.t3 = 0
    rw [h3, h4]; exact Time.Sub_self _
  · exact hc

/-- Witness of C5: the plaintext probe of a literal-IP URL. -/
theorem poll_plaintext_witness :
    (∀ e ∈ literalIPProbe.events, isTLS e = false) ∧
    ∃ s, (poll (platformOf literalIPProbe) "http://192.0.2.10/").outcome = .returned s none ∧
      s.time.tlsHandshake = 0 ∧ s.tlsCert = none := by
  have hno : ∀ e ∈ literalIPProbe.events, isTLS e = false := by decide
  obtain ⟨v, s, _, _, _, h, h1, h2⟩ :=
    poll_plaintext (platformOf literalIPProbe) "http://192.0.2.10/"
      ⟨"GET", "http://192.0.2.10/"⟩ ⟨200⟩ rfl rfl hno
  exact ⟨hno, s, h, h1, h2⟩

/-- C6: when the request was built and no hook panicked, `poll` returns, and
the error it returns is the error value of the one `client.Do` call,
unchanged: an error exactly when that call returned one, nil for every
response whatever its status code. `client.Do` is called once: what a second
call would return has no effect on `poll`. -/
theorem poll_error_passthrough (p : Platform) (url : String) (req : Request) (v : Vars)
    (hreq : p.NewRequest "GET" url = .ok req)
    (hrun : runHooks p.Now (p.Do req 0).events Vars.init = .ok v) :
    (∃ s err, (poll p url).outcome = .returned s err ∧
      err = resultErr (p.Do req 0).result ∧
      (err ≠ none ↔ ∃ e, (p.Do req 0).result = .error e) ∧
      (∀ e, (p.Do req 0).result = .error e → err = some e) ∧
      (∀ resp, (p.Do req 0).result = .ok resp → err = none)) ∧
    (poll p url).doCalls = 1 ∧
    ∀ q : Platform, q.NewRequest = p.NewRequest → q.Now = p.Now →
      q.Do req 0 = p.Do req 0 → poll q url = poll p url := by
  refine ⟨?_, ?_, ?_⟩
  · cases hres : (p.Do req 0).result with
    | error e =>
      exact ⟨_, _, by rw [poll_of_run_error hreq hrun hres], by simp [resultErr],
        by simp, by simp, by simp⟩
    | ok resp =>
      exact ⟨_, _, by rw [poll_of_run_ok hreq hrun hres], by simp [resultErr],
        by simp, by simp, by simp⟩
  · cases hres : (p.Do req 0).result with
    | error e => rw [poll_of_run_error hreq hrun hres]
    | ok resp => rw [poll_of_run_ok hreq hrun hres]
  · intro q hq hn hd
    have hreq' : q.NewRequest "GET" url = .ok req := by rw [hq]; exact hreq
    have hrun' : runHooks q.Now (q.Do req 0).events Vars.init = .ok v := by
      rw [hn, hd]; exact hrun
    cases hres : (p.Do req 0).result with
    | error e =>
      rw [poll_of_run_error hreq hrun hres, poll_of_run_error hreq' hrun' (hd ▸ hres)]
    | ok resp =>
      rw [poll_of_run_ok hreq hrun hres, poll_of_run_ok hreq' hrun' (hd ▸ hres), hn]

/-- Witness of C6: a probe answered with status 404 returns a nil error. -/
theorem poll_error_passthrough_witness :
    (∃ s, (poll (platformOf notFoundProbe) "http://192.0.2.10/missing").outcome =
      .returned s none) ∧
    (poll (platformOf notFoundProbe) "http://192.0.2.10/missing").doCalls = 1 := by
  obtain ⟨⟨s, err, h, he, _⟩, hc, _⟩ :=
    poll_error_passthrough (platformOf notFoundProbe) "http://192.0.2.10/missing"
      ⟨"GET", "http://192.0.2.10/missing"⟩
      (varsAfter (runHooks wallClock notFoundProbe.events Vars.init)) rfl rfl
  refine ⟨⟨s, ?_⟩, hc⟩
  rw [h, he]; rfl

/-- C2: for every successful probe whose hook events fired in lifecycle
order (with or without the DNS hooks, with or without the TLS hooks, a
handshake that succeeded reporting at least one peer certificate), on a clock
whose readings are non-decreasing and, as readings of `time.Now` are, not
before the zero-value time, `poll` returns stats with `ttfb ≥ dnsLookup` and
all six durations `≥ 0`. This includes the probes in which `t0`, or `t3` and
`t4`, are still the zero-value time when the durations are computed. -/
theorem poll_durations_nonneg (p : Platform) (url : String) (req : Request)
    (resp : Response) (dns : Option (DNSStartInfo × DNSDoneInfo)) (network addr : String)
    (tls : Option ConnectionState) (info : GotConnInfo)
    (hreq : p.NewRequest "GET" url = .ok req)
    (hev : (p.Do req 0).events = lifecycle dns network addr tls info)
    (hres : (p.Do req 0).result = .ok resp)
    (hmono : Monotone p.Now) (hpos : ∀ k, Time.zero ≤ p.Now k)
    (htls : chainPresent tls) :
    ∃ s, (poll p url).outcome = .returned s none ∧
      s.time.dnsLookup ≤ s.time.ttfb ∧
      0 ≤ s.time.dnsLookup ∧ 0 ≤ s.time.tcpConnection ∧ 0 ≤ s.time.tlsHandshake ∧
      0 ≤ s.time.serverProcessing ∧ 0 ≤ s.time.contentTransfer ∧ 0 ≤ s.time.ttfb := by
  obtain ⟨v, hrun, h01, h12, h34, h56, h16, h67⟩ :=
    lifecycle_order dns network addr tls info hmono hpos htls
  rw [← hev] at hrun
  refine ⟨derive { v with t7 := p.Now v.nowCalls, nowCalls := v.nowCalls + 1 },
    by rw [poll_of_run_ok hreq hrun hres], ?_, ?_, ?_, ?_, ?_, ?_, ?_⟩
  · exact Time.Sub_mono_left v.t0 h16
  · exact Time.Sub_nonneg h01
  · exact Time.Sub_nonneg h12
  · exact Time.Sub_nonneg h34
  · exact Time.Sub_nonneg h56
  · exact Time.Sub_nonneg h67
  · exact Time.Sub_nonneg (le_trans h01 h16)

theorem wallClock_monotone : Monotone wallClock := by
  intro a b h
  have h1 : (a : Int) ≤ (b : Int) := by exact_mod_cast h
  unfold wallClock
  unfold Time
  omega

theorem wallClock_pos (k : Nat) : Time.zero ≤ wallClock k := by
  have h1 : (0 : Int) ≤ (k : Int) := by exact_mod_cast Nat.zero_le k
  unfold wallClock Time.zero
  unfold Time
  omega

/-- Witness of C2: the probe of a literal-IP URL, in which the DNS hooks and
the TLS hooks never fire. -/
theorem poll_durations_nonneg_witness :
    Monotone wallClock ∧ (∀ k, Time.zero ≤ wallClock k) ∧
    ∃ s, (poll (platformOf literalIPProbe) "http://192.0.2.10/").outcome = .returned s none ∧
      s.time.dnsLookup ≤ s.time.ttfb ∧
      0 ≤ s.time.dnsLookup ∧ 0 ≤ s.time.tcpConnection ∧ 0 ≤ s.time.tlsHandshake ∧
      0 ≤ s.time.serverProcessing ∧ 0 ≤ s.time.contentTransfer ∧ 0 ≤ s.time.ttfb :=
  ⟨wallClock_monotone, wallClock_pos,
    poll_durations_nonneg (platformOf literalIPProbe) "http://192.0.2.10/"
      ⟨"GET", "http://192.0.2.10/"⟩ ⟨200⟩ none "tcp" "192.0.2.10:80" none
      { Reused := false, WasIdle := false, IdleTime := 0 } rfl rfl rfl
      wallClock_monotone wallClock_pos trivial⟩

/-- C3, evaluated on the code: in a successful probe of a literal-IP URL the
DNS hooks never fire, `t0` stays unset and `t1` is supplied by `ConnectStart`;
`poll` then returns `dnsLookup` and `ttfb` equal to `maxDuration`, the saturated
difference between a set timestamp and the zero-value time, not zero. -/
theorem poll_literalIP_dnsLookup_spurious :
    (∀ e ∈ literalIPProbe.events, writer e ≠ some 0 ∧ writer e ≠ some 1) ∧
    (poll (platformOf literalIPProbe) "http://192.0.2.10/").outcome =
      .returned { ipAddr := "192.0.2.10:80", tlsCert := none,
                  time := { dnsLookup := 9223372036854775807, tcpConnection := 1000000,
                            tlsHandshake := 0, serverProcessing := 1000000,
                            contentTransfer := 1000000,
                            ttfb := 9223372036854775807 } } none ∧
    Time.Sub (wallClock 0) Time.zero = 9223372036854775807 ∧
    Time.Sub (wallClock 3) Time.zero = 9223372036854775807 := by
  decide

/-- C7: the TLS-handshake-done hook records `t4` on every invocation; when
the handshake succeeded it sets `s.tlsCert` to the first entry of the peer
certificate chain of the reported connection state; when it failed it leaves
`s.tlsCert` as it was, for every connection state. -/
theorem TLSHandshakeDone_records (clock : Nat → Time) (cs : ConnectionState)
    (err : Option Error) (v : Vars) :
    (varsAfter (TLSHandshakeDone clock cs err v)).t4 = clock v.nowCalls ∧
    (err = none → ∀ c rest, cs.PeerCertificates = c :: rest →
      ∃ v1, TLSHandshakeDone clock cs err v = .ok v1 ∧ v1.t4 = clock v.nowCalls ∧
        v1.s.tlsCert = c) ∧
    (err ≠ none →
      ∃ v1, TLSHandshakeDone clock cs err v = .ok v1 ∧ v1.t4 = clock v.nowCalls ∧
        v1.s.tlsCert = v.s.tlsCert) := by
  refine ⟨?_, ?_, ?_⟩
  · rcases cs with ⟨_ | ⟨c, rest⟩⟩ <;> cases err <;>
      simp [TLSHandshakeDone, index, varsAfter, timeNow]
  · intro he c rest hc
    subst he
    simp [TLSHandshakeDone, index, timeNow, hc]
  · intro he
    simp [TLSHandshakeDone, timeNow, he]

/-- Witness of C7: a successful handshake presenting `leafCert`, and a failed
one, from the initial variables. -/
theorem TLSHandshakeDone_records_witness :
    (∃ v1, TLSHandshakeDone wallClock { PeerCertificates := [some leafCert] } none Vars.init
        = .ok v1 ∧ v1.t4 = wallClock 0 ∧ v1.s.tlsCert = some leafCert) ∧
    (∃ v1, TLSHandshakeDone wallClock { PeerCertificates := [] }
        (some (Error.mk "x509: certificate has expired")) Vars.init
        = .ok v1 ∧ v1.t4 = wallClock 0 ∧ v1.s.tlsCert = none) :=
  ⟨(TLSHandshakeDone_records wallClock { PeerCertificates := [some leafCert] } none
      Vars.init).2.1 rfl (some leafCert) [] rfl,
   (TLSHandshakeDone_records wallClock { PeerCertificates := [] }
      (some (Error.mk "x509: certificate has expired")) Vars.init).2.2 (by simp)⟩

/-- C10: in the TLS-handshake-done hook the index expression
`cs.PeerCertificates[0]` is in range exactly when the chain is non-empty: a
successful handshake-done event with at least one peer certificate completes,
one with an empty chain panics with index 0 out of range for length 0, and for
a failed handshake the chain is not indexed, the hook completing with the same
variables for every connection state. -/
theorem TLSHandshakeDone_index (clock : Nat → Time) (cs : ConnectionState)
    (err : Option Error) (v : Vars) :
    ((∃ c, index cs.PeerCertificates 0 = .ok c) ↔ cs.PeerCertificates ≠ []) ∧
    (err = none → cs.PeerCertificates ≠ [] →
      ∃ v1, TLSHandshakeDone clock cs err v = .ok v1) ∧
    (err = none → cs.PeerCertificates = [] →
      ∃ pn, TLSHandshakeDone clock cs err v = .error pn ∧ pn.index = 0 ∧ pn.length = 0) ∧
    (err ≠ none →
      ∃ v1, ∀ cs2, TLSHandshakeDone clock cs2 err v = .ok v1) := by
  refine ⟨?_, ?_, ?_, ?_⟩
  · rcases cs with ⟨_ | ⟨c, rest⟩⟩ <;> simp [index]
  · intro he hc
    subst he
    rcases cs with ⟨_ | ⟨c, rest⟩⟩
    · simp at hc
    · simp [TLSHandshakeDone, index]
  · intro he hc
    subst he
    simp [TLSHandshakeDone, index, hc]
  · intro he
    exact ⟨{ (timeNow clock v).2 with t4 := (timeNow clock v).1 },
      fun cs2 => by simp [TLSHandshakeDone, he]⟩

/-- Witness of C10: a successful handshake-done event with an empty chain
panics, one with a certificate completes. -/
theorem TLSHandshakeDone_index_witness :
    (∃ pn, TLSHandshakeDone wallClock { PeerCertificates := [] } none Vars.init = .error pn ∧
      pn.index = 0 ∧ pn.length = 0) ∧
    (∃ v1, TLSHandshakeDone wallClock { PeerCertificates := [some leafCert] } none Vars.init
      = .ok v1) :=
  ⟨(TLSHandshakeDone_index wallClock { PeerCertificates := [] } none Vars.init).2.2.1 rfl rfl,
   (TLSHandshakeDone_index wallClock { PeerCertificates := [some leafCert] } none
      Vars.init).2.1 rfl (by simp)⟩

/-- C9: the connection-start hook writes `t1` only if `t1` is still unset:
if `t1` is the zero-value time it becomes the current time, otherwise the hook
changes nothing; in both cases every other checkpoint, `t7`, the remote address
and the certificate are unchanged. Consequently, for a successful probe in
lifecycle order (a handshake that succeeded reporting at least one peer
certificate): when the DNS hooks fired (the DNS-done reading, number 1, not
being the zero-value time), `tcpConnection` is `t2`, reading number 2, minus the
DNS-done time; when DNS was skipped, `tcpConnection` is `t2`, reading number 1,
minus the connect-start time, reading number 0. -/
theorem ConnectStart_guard (p : Platform) (network addr : String) (v : Vars) :
    (Time.IsZero v.t1 = true →
      (ConnectStart p.Now network addr v).t1 = p.Now v.nowCalls) ∧
    (Time.IsZero v.t1 = false → ConnectStart p.Now network addr v = v) ∧
    (∀ i : Fin 7, i ≠ 1 →
      checkpoint i (ConnectStart p.Now network addr v) = checkpoint i v) ∧
    (ConnectStart p.Now network addr v).t7 = v.t7 ∧
    (ConnectStart p.Now network addr v).s = v.s ∧
    (∀ url req resp a b tls info,
      p.NewRequest "GET" url = .ok req →
      (p.Do req 0).events = lifecycle (some (a, b)) network addr tls info →
      (p.Do req 0).result = .ok resp →
      chainPresent tls → p.Now 1 ≠ Time.zero →
      ∃ s, (poll p url).outcome = .returned s none ∧
        s.time.tcpConnection = Time.Sub (p.Now 2) (p.Now 1)) ∧
    (∀ url req resp tls info,
      p.NewRequest "GET" url = .ok req →
      (p.Do req 0).events = lifecycle none network addr tls info →
      (p.Do req 0).result = .ok resp →
      chainPresent tls →
      ∃ s, (poll p url).outcome = .returned s none ∧
        s.time.tcpConnection = Time.Sub (p.Now 1) (p.Now 0)) := by
  refine ⟨?_, ?_, ?_, ?_, ?_, ?_, ?_⟩
  · intro hz; simp [ConnectStart, hz, timeNow]
  · intro hz; simp [ConnectStart, hz]
  · intro i hi
    simp only [ConnectStart]
    split_ifs
    · fin_cases i <;> first | rfl | exact absurd rfl hi
    · rfl
  · simp only [ConnectStart]; split_ifs <;> rfl
  · simp only [ConnectStart]; split_ifs <;> rfl
  · intro url req resp a b tls info hreq hev hres htls hnz
    obtain ⟨v1, hrun, h1, h2⟩ := lifecycle_tcp_dns a b network addr tls info hnz htls
    rw [← hev] at hrun
    refine ⟨derive { v1 with t7 := p.Now v1.nowCalls, nowCalls := v1.nowCalls + 1 },
      by rw [poll_of_run_ok hreq hrun hres], ?_⟩
    show Time.Sub v1.t2 v1.t1 = _
    rw [h1, h2]
  · intro url req resp tls info hreq hev hres htls
    obtain ⟨v1, hrun, _, h1, h2, _⟩ :=
      lifecycle_tcp_nodns p.Now network addr tls info htls
    rw [← hev] at hrun
    refine ⟨derive { v1 with t7 := p.Now v1.nowCalls, nowCalls := v1.nowCalls + 1 },
      by rw [poll_of_run_ok hreq hrun hres], ?_⟩
    show Time.Sub v1.t2 v1.t1 = _
    rw [h1, h2]

/-- Witness of C9: the HTTPS probe of a host name, in which `DNSDone` fired
before `ConnectStart`. -/
theorem ConnectStart_guard_witness :
    wallClock 1 ≠ Time.zero ∧
    ∃ s, (poll (platformOf httpsProbe) "https://example.com").outcome = .returned s none ∧
      s.time.tcpConnection = Time.Sub (wallClock 2) (wallClock 1) :=
  ⟨by decide,
    (ConnectStart_guard (platformOf httpsProbe) "tcp" "93.184.216.34:443" Vars.init).2.2.2.2.2.1
      "https://example.com" ⟨"GET", "https://example.com"⟩ ⟨200⟩
      { Host := "example.com" }
      { Addrs := ["93.184.216.34"], Err := none, Coalesced := false }
      (some { PeerCertificates := [some leafCert] })
      { Reused := false, WasIdle := false, IdleTime := 0 } rfl rfl rfl (by simp [chainPresent])
      (by decide)⟩

/-- C4 as stated fails: in a probe that times out after the connection and
the TLS handshake succeeded, the stats returned with the error carry the
address and the certificate the hooks captured; they are not the empty stats. -/
theorem poll_timeout_not_empty :
    (poll (platformOf timeoutProbe) "https://192.0.2.10/").outcome =
      .returned { ipAddr := "192.0.2.10:443", tlsCert := some leafCert,
                  time := stats.zero.time }
        (some (Error.mk "context deadline exceeded")) ∧
    (poll (platformOf timeoutProbe) "https://192.0.2.10/").outcome ≠
      .returned stats.zero (some (Error.mk "context deadline exceeded")) := by
  decide

/-- C4, amended: when the transport call fails, `poll` returns the transport
error together with the stats as the hooks left them: all six durations are
zero, `ipAddr` is the address delivered by the last `ConnectDone` (empty when
none fired) and `tlsCert` is the first chain entry of the last successful
`TLSHandshakeDone` (nil when none fired). -/
theorem poll_failure_stats (p : Platform) (url : String) (req : Request) (err : Error)
    (v : Vars)
    (hreq : p.NewRequest "GET" url = .ok req)
    (hrun : runHooks p.Now (p.Do req 0).events Vars.init = .ok v)
    (hres : (p.Do req 0).result = .error err) :
    ∃ s, (poll p url).outcome = .returned s (some err) ∧
      s.time = stats.zero.time ∧
      s.ipAddr = lastAddr "" (p.Do req 0).events ∧
      s.tlsCert = lastLeaf none (p.Do req 0).events := by
  obtain ⟨h1, h2, h3⟩ := runHooks_stats _ hrun
  exact ⟨v.s, by rw [poll_of_run_error hreq hrun hres], h1, h2, h3⟩

/-- Witness of the amended C4: the probe that times out after the handshake. -/
theorem poll_failure_stats_witness :
    ∃ s, (poll (platformOf timeoutProbe) "https://192.0.2.10/").outcome =
        .returned s (some (Error.mk "context deadline exceeded")) ∧
      s.time = stats.zero.time ∧ s.ipAddr = "192.0.2.10:443" ∧ s.tlsCert = some leafCert := by
  obtain ⟨s, h, h1, h2, h3⟩ :=
    poll_failure_stats (platformOf timeoutProbe) "https://192.0.2.10/"
      ⟨"GET", "https://192.0.2.10/"⟩ (Error.mk "context deadline exceeded")
      (varsAfter (runHooks wallClock timeoutProbe.events Vars.init)) rfl rfl rfl
  exact ⟨s, h, h1, by rw [h2]; decide, by rw [h3]; decide⟩

/-- C8 as stated fails: when `ConnectDone` fires twice in one probe, `t2` is
set by the first invocation and changed by the second. -/
theorem ConnectDone_twice_overwrites :
    runHooks wallClock (dualStackDone.take 1) Vars.init = .ok afterFirstDone ∧
    afterFirstDone.t2 ≠ Time.zero ∧
    runHooks wallClock (dualStackDone.drop 1) afterFirstDone = .ok afterSecondDone ∧
    runHooks wallClock dualStackDone Vars.init = .ok afterSecondDone ∧
    afterSecondDone.t2 ≠ afterFirstDone.t2 :=
  ⟨rfl, by decide, rfl, rfl, by decide⟩

/-- C8, amended: within one probe a checkpoint that has been set is not
changed by later hook invocations other than invocations of its own recording
hook (DNSStart for t0, DNSDone for t1, ConnectDone for t2, TLSHandshakeStart
for t3, TLSHandshakeDone for t4, GotConn for t5, GotFirstResponseByte for t6);
in particular `ConnectStart` never changes a set `t1`. Each of those seven
hooks writes the current time to its checkpoint on every invocation. -/
theorem checkpoint_kept_until_rewritten (clock : Nat → Time) (es : List Event)
    (v v1 : Vars) (i : Fin 7)
    (hrun : runHooks clock es v = .ok v1)
    (hset : checkpoint i v ≠ Time.zero)
    (hw : ∀ e ∈ es, writer e ≠ some i) :
    checkpoint i v1 = checkpoint i v ∧
    ∀ e, writer e = some i →
      checkpoint i (varsAfter (fire clock e v1)) = clock v1.nowCalls :=
  ⟨runHooks_checkpoint es i hrun hset hw, fun e he => fire_writer e v1 i he⟩

/-- Witness of the amended C8: after `ConnectDone`, the hooks of the rest of
an HTTPS probe leave `t2` as it is. -/
theorem checkpoint_kept_until_rewritten_witness :
    (∀ e ∈ afterConnect, writer e ≠ some 2) ∧
    checkpoint 2 (varsAfter (runHooks wallClock afterConnect afterFirstDone))
      = 63929347200000000000 :=
  ⟨by decide,
    (checkpoint_kept_until_rewritten wallClock afterConnect afterFirstDone
      (varsAfter (runHooks wallClock afterConnect afterFirstDone)) 2 rfl
      (by decide) (by decide)).1⟩

end Webmon
